import Mathlib

/-!
Verification of the Stair-Stringer core pipeline: layout solver (`calcStairs`),
materials estimator (`calcMaterials`), 3D geometry builder
(`buildStaircaseGeometry`), dimensional parser/formatter (`parseInches`,
`toFraction`, `toFeetInches`) and the perspective-calibration state machine.

JavaScript numbers are modelled as exact rationals (ℚ); integer-valued JS
numbers (counts) as ℤ.  Fallible code (`throw`) is modelled with `Except`,
keeping the exact thrown message strings.  The two transcendental output
fields of the solver (`angleDeg = atan(exactRiserIn/treadRunIn)` and
`stringerLenIn = sqrt(rise² + run²)`) are real-valued and referenced by no
verified claim; they are left out of the embedded record so that every
definition stays executable.
-/

/-- JS `Math.round` on a rational: round half toward positive infinity. -/
def jsRound (q : ℚ) : ℤ := ⌊q + 1/2⌋

/-- Inputs of `calcStairs` (src/unnamed/part_003, `StairInputs`). -/
structure StairInputs where
  totalRiseIn : ℚ
  treadRunIn : ℚ
  targetRiserIn : Option ℚ
  finishMode : Bool
  topFinishIn : Option ℚ
  bottomFinishIn : Option ℚ
deriving Repr, DecidableEq

/-- Outputs of `calcStairs` (src/unnamed/part_003, `StairOutputs`), without the
two transcendental fields `angleDeg` and `stringerLenIn` (unused by claims). -/
structure StairOutputs where
  numRisers : ℤ
  numTreads : ℤ
  exactRiserIn : ℚ
  treadRunIn : ℚ
  totalRunIn : ℚ
  firstRiserIn : ℚ
  lastRiserIn : ℚ
  remainingMeatIn : ℚ
  meatPass : Bool
  warnings : List String
deriving Repr, DecidableEq

/-- 2x12 actual depth, inches (src constant `STRINGER_ACTUAL_DEPTH_IN`). -/
def STRINGER_ACTUAL_DEPTH_IN : ℚ := 45/4

/-- Minimum remaining structural meat, inches (src constant `MIN_MEAT_IN`). -/
def MIN_MEAT_IN : ℚ := 7/2

/-- Riser-height warning string from `calcStairs`. -/
def riserWarning : String := "Riser over 7.75\" (may fail code depending on jurisdiction)."

/-- Tread-run warning string from `calcStairs`. -/
def treadWarning : String := "Tread run under 10\" (may fail code depending on jurisdiction)."

/-- Meat-check warning string from `calcStairs`. -/
def meatWarning : String := "2x12 meat FAIL — redesign needed (bigger stock/LVL or adjust rise/run)."

/-- The layout solver (src/unnamed/part_003, `calcStairs`), with `throw`
modelled as `Except.error` of the thrown message. -/
def calcStairs (input : StairInputs) : Except String StairOutputs :=
  let totalRiseIn := input.totalRiseIn
  let treadRunIn := input.treadRunIn
  let targetRiserIn := input.targetRiserIn.getD (29/4)
  if ¬ (totalRiseIn > 0) then .error "Total rise must be > 0"
  else if ¬ (treadRunIn > 0) then .error "Tread run must be > 0"
  else
    let raw := totalRiseIn / targetRiserIn
    let numRisers0 := jsRound raw
    let numRisers := if numRisers0 < 2 then 2 else numRisers0
    let exactRiserIn := totalRiseIn / (numRisers : ℚ)
    let numTreads := numRisers - 1
    let totalRunIn := (numTreads : ℚ) * treadRunIn
    let top := input.topFinishIn.getD 0
    let bottom := input.bottomFinishIn.getD 0
    let firstRiserIn := if input.finishMode then exactRiserIn + bottom else exactRiserIn
    let lastRiserIn := if input.finishMode then exactRiserIn - top else exactRiserIn
    let remainingMeatIn := STRINGER_ACTUAL_DEPTH_IN - exactRiserIn - treadRunIn
    let meatPass : Bool := remainingMeatIn ≥ MIN_MEAT_IN
    let warnings : List String :=
      (if exactRiserIn > 31/4 then [riserWarning] else []) ++
      (if treadRunIn < 10 then [treadWarning] else []) ++
      (if ¬ meatPass then [meatWarning] else [])
    .ok {
      numRisers := numRisers
      numTreads := numTreads
      exactRiserIn := exactRiserIn
      treadRunIn := treadRunIn
      totalRunIn := totalRunIn
      firstRiserIn := firstRiserIn
      lastRiserIn := lastRiserIn
      remainingMeatIn := remainingMeatIn
      meatPass := meatPass
      warnings := warnings
    }

/-- Inputs of `calcMaterials` (src/unnamed/part_003, `MaterialsInputs`). -/
structure MaterialsInputs where
  stairWidthIn : ℚ
  stringerOcin : ℚ
  closedStair : Bool
  numTreads : ℤ
  numRisers : ℤ
  stringerLenIn : ℚ
deriving Repr, DecidableEq

/-- Outputs of `calcMaterials` (src/unnamed/part_003, `MaterialsOutputs`). -/
structure MaterialsOutputs where
  numStringers : ℤ
  suggestedStockLenFt : ℤ
  treadsQty : ℤ
  risersQty : ℤ
  notes : List String
deriving Repr, DecidableEq

/-- Stock-length catalog in feet (src constant `COMMON_STOCK_FT`). -/
def COMMON_STOCK_FT : List ℤ := [8, 10, 12, 14, 16, 18, 20]

/-- The materials estimator (src/unnamed/part_003, `calcMaterials`). -/
def calcMaterials (m : MaterialsInputs) : MaterialsOutputs :=
  let numStringers0 := ⌈m.stairWidthIn / m.stringerOcin⌉ + 1
  let numStringers1 := if numStringers0 < 2 then 2 else numStringers0
  let numStringers := if m.stairWidthIn ≤ 36 then max numStringers1 3 else numStringers1
  let neededFt := m.stringerLenIn / 12
  let suggestedStockLenFt : ℤ :=
    (COMMON_STOCK_FT.find? (fun (ft : ℤ) => decide ((ft : ℚ) ≥ neededFt))).getD ⌈neededFt⌉
  let treadsQty := m.numTreads
  let risersQty := if m.closedStair then m.numRisers else 0
  let notes : List String :=
    (if suggestedStockLenFt ≥ 18 then ["Long stock: consider LVL or splicing plan."] else []) ++
    ["Blocking/bridging as required (especially mid-span).",
     "Check local code for max riser/min tread + guard/handrail requirements."]
  {
    numStringers := numStringers
    suggestedStockLenFt := suggestedStockLenFt
    treadsQty := treadsQty
    risersQty := risersQty
    notes := notes
  }

/-- A 3D vertex (the `three` `Vector3` instances built by the geometry
builder), with exact rational coordinates. -/
structure Vec3 where
  x : ℚ
  y : ℚ
  z : ℚ
deriving Repr, DecidableEq

/-- Bounding dimensions of the staircase (src/src/lib/rendering/types.ts via
units.ts, `dimensions` field). -/
structure StairDimensions where
  width : ℚ
  height : ℚ
  depth : ℚ
deriving Repr, DecidableEq

/-- Output of the 3D geometry builder (`StaircaseGeometry`). -/
structure StaircaseGeometry where
  stringers : List (List Vec3)
  treads : List (List Vec3)
  risers : List (List Vec3)
  dimensions : StairDimensions
deriving Repr, DecidableEq

/-- 2x12 actual depth constant of the geometry module (`STRINGER_DEPTH`);
declared in the source file, not referenced by `buildStaircaseGeometry`. -/
def STRINGER_DEPTH : ℚ := 45/4

/-- Tread thickness constant of the geometry module (`TREAD_THICKNESS`). -/
def TREAD_THICKNESS : ℚ := 1

/-- The 3D geometry builder (src/src/lib/units.ts part, geometry.ts,
`buildStaircaseGeometry`).  JS `for` loops counting up to an integer-valued
bound become `List.range bound.toNat` (a non-positive bound runs zero
iterations, as in JS). -/
def buildStaircaseGeometry (stairData : StairOutputs) (materialsData : MaterialsOutputs)
    (stairWidthIn : ℚ) : StaircaseGeometry :=
  let exactRiserIn := stairData.exactRiserIn
  let treadRunIn := stairData.treadRunIn
  let numRisers := stairData.numRisers
  let numTreads := stairData.numTreads
  let totalRunIn := stairData.totalRunIn
  let numStringers := materialsData.numStringers
  let stringerSpacing := stairWidthIn / ((numStringers : ℚ) - 1)
  let stringers : List (List Vec3) :=
    (List.range numStringers.toNat).map (fun (i : ℕ) =>
      let xPos := (i : ℚ) * stringerSpacing
      [Vec3.mk xPos 0 0] ++
      ((List.range numTreads.toNat).flatMap (fun (step : ℕ) =>
        let riseY := ((step : ℚ) + 1) * exactRiserIn
        let runZ := ((step : ℚ) + 1) * treadRunIn
        [Vec3.mk xPos riseY (runZ - treadRunIn), Vec3.mk xPos riseY runZ])) ++
      [Vec3.mk xPos ((numRisers : ℚ) * exactRiserIn) totalRunIn])
  let treads : List (List Vec3) :=
    (List.range numTreads.toNat).map (fun (step : ℕ) =>
      let riseY := ((step : ℚ) + 1) * exactRiserIn
      let runZ := ((step : ℚ) + 1) * treadRunIn
      [Vec3.mk 0 riseY (runZ - treadRunIn), Vec3.mk stairWidthIn riseY (runZ - treadRunIn),
       Vec3.mk stairWidthIn riseY runZ, Vec3.mk 0 riseY runZ,
       Vec3.mk 0 (riseY + TREAD_THICKNESS) (runZ - treadRunIn),
       Vec3.mk stairWidthIn (riseY + TREAD_THICKNESS) (runZ - treadRunIn),
       Vec3.mk stairWidthIn (riseY + TREAD_THICKNESS) runZ,
       Vec3.mk 0 (riseY + TREAD_THICKNESS) runZ])
  let risers : List (List Vec3) :=
    (List.range numRisers.toNat).map (fun (step : ℕ) =>
      let bottomY := (step : ℚ) * exactRiserIn
      let topY := ((step : ℚ) + 1) * exactRiserIn
      let runZ := (step : ℚ) * treadRunIn
      [Vec3.mk 0 bottomY runZ, Vec3.mk stairWidthIn bottomY runZ,
       Vec3.mk stairWidthIn topY runZ, Vec3.mk 0 topY runZ])
  {
    stringers := stringers
    treads := treads
    risers := risers
    dimensions := ⟨stairWidthIn, (numRisers : ℚ) * exactRiserIn, totalRunIn⟩
  }

/-- The `gcd` helper of units.ts: a Euclid loop
`while (y) [x, y] = [y, x % y]` on the absolute values, started at `(|a|,|b|)`.
The loop returns `Nat.gcd |b| |a|`. -/
def gcdJs (a b : ℤ) : ℤ := (Nat.gcd b.natAbs a.natAbs : ℤ)

/-- The fraction formatter of units.ts (`toFraction`): round to the nearest
`1/denom` (with JS' `1e-9` guard inside the floor), reduce by the GCD, render
as a whole number, pure fraction, or mixed number. -/
def toFraction (valueIn : ℚ) (denom : ℤ) : String :=
  let whole : ℤ := ⌊valueIn + 1/1000000000⌋
  let frac : ℚ := valueIn - (whole : ℚ)
  let n : ℤ := jsRound (frac * (denom : ℚ))
  if n = 0 then toString whole
  else if n = denom then toString (whole + 1)
  else
    let g : ℤ := gcdJs n denom
    let nn : ℤ := n / g
    let dd : ℤ := denom / g
    if whole = 0 then toString nn ++ "/" ++ toString dd
    else toString whole ++ " " ++ toString nn ++ "/" ++ toString dd

/-- The feet-and-inches formatter of units.ts (`toFeetInches`). -/
def toFeetInches (inches : ℚ) : String :=
  let sign := if inches < 0 then "-" else ""
  let av : ℚ := |inches|
  let ft : ℤ := ⌊av / 12⌋
  let inch : ℚ := av - (ft : ℚ) * 12
  let frac := toFraction inch 16
  if ft > 0 then sign ++ toString ft ++ "\x27 " ++ frac ++ "\""
  else sign ++ frac ++ "\""

/-- A calibration reference point
(src/src/components/rendering/PerspectiveCalibration.tsx, `CalibrationPoint`):
image coordinates as fractions 0–1 plus an auto-generated label. -/
structure CalibrationPoint where
  x : ℚ
  y : ℚ
  realHeight : Option ℚ
  label : String
deriving Repr, DecidableEq

/-- The calibrator's step (the component's `currentStep` union type
`"floor" | "reference" | "vanishing" | "done"`). -/
inductive CalStep where
  | floor
  | reference
  | vanishing
  | done
deriving Repr, DecidableEq

/-- The calibrator's interactive state: accumulated reference points, current
step, floor line, and loaded image dimensions. -/
structure CalState where
  points : List CalibrationPoint
  currentStep : CalStep
  floorY : ℚ
  imageWidth : ℤ
  imageHeight : ℤ
deriving Repr, DecidableEq

/-- The emitted calibration record (`CalibrationData`). -/
structure CalibrationData where
  points : List CalibrationPoint
  imageWidth : ℤ
  imageHeight : ℤ
  floorY : ℚ
  vanishingPointX : Option ℚ
  vanishingPointY : Option ℚ
deriving Repr, DecidableEq

/-- Initial calibrator state (the component's `useState` initializers:
no points, step `floor`, floorY 0.9). -/
def initialCalState : CalState := ⟨[], CalStep.floor, 9/10, 0, 0⟩

/-- Canvas click handler (`handleCanvasClick`): in `floor` the click sets the
floor line (last click wins); in `reference` it appends an auto-labeled
point; otherwise it is ignored. -/
def handleCanvasClick (x y : ℚ) (s : CalState) : CalState :=
  if s.currentStep = CalStep.floor then { s with floorY := y }
  else if s.currentStep = CalStep.reference then
    { s with points :=
        s.points ++ [⟨x, y, none, "Point " ++ toString (s.points.length + 1)⟩] }
  else s

/-- Advance handler (`handleNext`): the JS `alert` is modelled as the first
component of the result (the validation message, if any); the second
component is the state after the attempted transition. -/
def handleNext (s : CalState) : Option String × CalState :=
  if s.currentStep = CalStep.floor then (none, { s with currentStep := CalStep.reference })
  else if s.currentStep = CalStep.reference then
    if s.points.length < 2 then (some "Please mark at least 2 reference points", s)
    else (none, { s with currentStep := CalStep.done })
  else (none, s)

/-- Completion handler (`handleComplete`): with at least 2 reference points,
the vanishing point is the running-sum average of the points' x-fractions and
a fixed y of 0.4; the accumulated points, image size and floor line are
emitted as `CalibrationData`. -/
def handleComplete (s : CalState) : CalibrationData :=
  let vpX : Option ℚ :=
    if s.points.length ≥ 2
      then some ((s.points.foldl (fun sum p => sum + p.x) 0) / (s.points.length : ℚ))
      else none
  let vpY : Option ℚ := if s.points.length ≥ 2 then some (2/5) else none
  ⟨s.points, s.imageWidth, s.imageHeight, s.floorY, vpX, vpY⟩

/-- JS regex whitespace class `\\s` as used by units.ts (space, tab, newline,
carriage return cover every character the parser can meet here). -/
def isWS (c : Char) : Bool := c == ' ' || c == '\t' || c == '\n' || c == '\r'

/-- The character class `[a-z]` of the unit-stripping step of
`parseInchesPart` (the input is already lowercased). -/
def lowerAZ (c : Char) : Bool := decide ('a' ≤ c) && decide (c ≤ 'z')

/-- JS `String.toLowerCase` on one character (ASCII letters only, which is
all the basic-latin inputs of this parser use). -/
def jsToLower (c : Char) : Char :=
  if 'A' ≤ c ∧ c ≤ 'Z' then Char.ofNat (c.toNat + 32) else c

/-- JS `String.trim`: drop leading and trailing whitespace. -/
def trimList (l : List Char) : List Char :=
  ((l.dropWhile isWS).reverse.dropWhile isWS).reverse

/-- Numeric value of a decimal digit character. -/
def digitVal (c : Char) : ℕ := c.toNat - 48

/-- Value of a non-empty digit string, as read by JS `Number`. -/
def natOfDigits (ds : List Char) : ℕ := ds.foldl (fun a c => 10 * a + digitVal c) 0

/-- Apply an optional leading minus sign to a parsed magnitude. -/
def intOfSign (neg : Bool) (n : ℕ) : ℤ := if neg then -(n : ℤ) else (n : ℤ)

/-- Consume the optional `[+-]?` prefix of the numeric regexes in units.ts. -/
def readSign : List Char → Bool × List Char
  | [] => (false, [])
  | c :: rest =>
    if c = '+' then (false, rest)
    else if c = '-' then (true, rest)
    else (false, c :: rest)

/-- The regex `^[+-]?\\d+(\\.\\d+)?$` of `parseInches`/`parseInchesPart` with
JS `Number` conversion: an optionally signed integer or decimal, or `none`
when the whole string does not match. -/
def readPlainNumber (cs : List Char) : Option ℚ :=
  let sc := readSign cs
  let ds := sc.2.takeWhile Char.isDigit
  let rest := sc.2.dropWhile Char.isDigit
  if ds.isEmpty then none
  else
    match rest with
    | [] => some ((intOfSign sc.1 (natOfDigits ds) : ℤ) : ℚ)
    | c :: fs =>
      if c = '.' then
        if fs.isEmpty then none
        else if fs.all Char.isDigit then
          some (((intOfSign sc.1 (natOfDigits ds) : ℤ) : ℚ) +
            (if sc.1 then -1 else 1) * (natOfDigits fs : ℚ) / (10 ^ fs.length : ℚ))
        else none
      else none

/-- The mixed-fraction regex `^([+-]?\\d+)\\s+(\\d+)\\s*\\/\\s*(\\d+)$` of
`parseInchesPart`: signed whole part, numerator, denominator. -/
def readMixed (cs : List Char) : Option (ℤ × ℕ × ℕ) :=
  let sc := readSign cs
  let ds := sc.2.takeWhile Char.isDigit
  let r1 := sc.2.dropWhile Char.isDigit
  if ds.isEmpty then none
  else
    let r2 := r1.dropWhile isWS
    if r1.length = r2.length then none
    else
      let ns := r2.takeWhile Char.isDigit
      let r3 := r2.dropWhile Char.isDigit
      if ns.isEmpty then none
      else
        match r3.dropWhile isWS with
        | c :: r5 =>
          if c = '/' then
            let r6 := r5.dropWhile isWS
            let es := r6.takeWhile Char.isDigit
            let r7 := r6.dropWhile Char.isDigit
            if es.isEmpty then none
            else if r7.isEmpty then some (intOfSign sc.1 (natOfDigits ds), natOfDigits ns, natOfDigits es)
            else none
          else none
        | [] => none

/-- The pure-fraction regex `^(\\d+)\\s*\\/\\s*(\\d+)$` of `parseInchesPart`. -/
def readPure (cs : List Char) : Option (ℕ × ℕ) :=
  let ds := cs.takeWhile Char.isDigit
  let r1 := cs.dropWhile Char.isDigit
  if ds.isEmpty then none
  else
    match r1.dropWhile isWS with
    | c :: r3 =>
      if c = '/' then
        let r4 := r3.dropWhile isWS
        let es := r4.takeWhile Char.isDigit
        let r5 := r4.dropWhile Char.isDigit
        if es.isEmpty then none
        else if r5.isEmpty then some (natOfDigits ds, natOfDigits es)
        else none
      else none
    | [] => none

/-- Runner for `collapseWS`: the flag records whether the previous character
was whitespace, so each maximal whitespace run emits a single space. -/
def collapseAux : Bool → List Char → List Char
  | _, [] => []
  | prevWS, c :: cs =>
    if isWS c then
      (if prevWS then collapseAux true cs else ' ' :: collapseAux true cs)
    else c :: collapseAux false cs

/-- JS `replace(/\\s+/g, " ")`: collapse every whitespace run to one space. -/
def collapseWS (l : List Char) : List Char := collapseAux false l

/-- The hyphen-to-space replacement of `parseInchesPart` (JS global replace
of the hyphen by a space), one character at a time: hyphens in the inches
part are treated as whitespace. -/
def hyphenToSpace (c : Char) : Char := if c = '-' then ' ' else c

/-- The `parseInchesPart` helper of units.ts: empty means 0 inches; then a
plain number, a mixed fraction, or a pure fraction (zero denominators throw
`Invalid fraction`); otherwise letters are stripped once and parsing retried,
and if nothing was stripped the input is rejected. -/
def parseInchesPart (part : List Char) : Except String ℚ :=
  let p0 := trimList part
  if p0.isEmpty then .ok 0
  else
    let p := p0.map hyphenToSpace
    match readPlainNumber p with
    | some v => .ok v
    | none =>
      match readMixed p with
      | some (whole, num, den) =>
        if den = 0 then .error "Invalid fraction"
        else .ok ((whole : ℚ) + (num : ℚ) / (den : ℚ))
      | none =>
        match readPure p with
        | some (num, den) =>
          if den = 0 then .error "Invalid fraction"
          else .ok ((num : ℚ) / (den : ℚ))
        | none =>
          let cleaned := trimList (p.filter (fun c => ! lowerAZ c))
          if hcl : cleaned = p then .error "Unrecognized format"
          else parseInchesPart cleaned
termination_by part.length
decreasing_by
  have hdw : ∀ (f : Char → Bool) (l : List Char), (l.dropWhile f).length ≤ l.length := by
    intro f l
    induction l with
    | nil => exact Nat.le_refl _
    | cons a t ih =>
      by_cases hf : f a
      · rw [List.dropWhile_cons_of_pos hf]
        exact ih.trans (Nat.le_succ _)
      · rw [List.dropWhile_cons_of_neg hf]
  have hfl : ∀ (f : Char → Bool) (l : List Char), (l.filter f).length ≤ l.length := by
    intro f l
    induction l with
    | nil => exact Nat.le_refl _
    | cons a t ih =>
      by_cases hf : f a
      · rw [List.filter_cons_of_pos hf]
        simpa using ih
      · rw [List.filter_cons_of_neg hf]
        exact ih.trans (Nat.le_succ _)
  have htr : ∀ l : List Char, (trimList l).length ≤ l.length := by
    intro l
    unfold trimList
    rw [List.length_reverse]
    calc ((l.dropWhile isWS).reverse.dropWhile isWS).length
        ≤ (l.dropWhile isWS).reverse.length := hdw _ _
      _ = (l.dropWhile isWS).length := List.length_reverse _
      _ ≤ l.length := hdw _ _
  have hdweq : ∀ (f : Char → Bool) (l : List Char),
      (l.dropWhile f).length = l.length → l.dropWhile f = l := by
    intro f l
    induction l with
    | nil => intro h; rfl
    | cons a t ih =>
      intro h
      by_cases hf : f a
      · rw [List.dropWhile_cons_of_pos hf] at h ⊢
        have := hdw f t
        simp only [List.length_cons] at h
        omega
      · rw [List.dropWhile_cons_of_neg hf]
  have hfleq : ∀ (f : Char → Bool) (l : List Char),
      (l.filter f).length = l.length → l.filter f = l := by
    intro f l
    induction l with
    | nil => intro h; rfl
    | cons a t ih =>
      intro h
      by_cases hf : f a
      · rw [List.filter_cons_of_pos hf] at h ⊢
        simp only [List.length_cons] at h
        rw [ih (by omega)]
      · rw [List.filter_cons_of_neg hf] at h
        have := hfl f t
        simp only [List.length_cons] at h
        omega
  have htreq : ∀ l : List Char, (trimList l).length = l.length → trimList l = l := by
    intro l h
    unfold trimList at h ⊢
    rw [List.length_reverse] at h
    have h1 : ((l.dropWhile isWS).reverse.dropWhile isWS).length ≤
        (l.dropWhile isWS).reverse.length := hdw _ _
    rw [List.length_reverse] at h1
    have h2 : (l.dropWhile isWS).length ≤ l.length := hdw _ _
    have h3 : (l.dropWhile isWS).length = l.length := by omega
    have h4 : ((l.dropWhile isWS).reverse.dropWhile isWS).length =
        (l.dropWhile isWS).reverse.length := by
      rw [List.length_reverse]
      omega
    rw [hdweq _ _ h4, List.reverse_reverse, hdweq _ _ h3]
  have c1 : (trimList ((trimList part).map hyphenToSpace
      |>.filter (fun c => ! lowerAZ c))).length ≤
      (((trimList part).map hyphenToSpace).filter (fun c => ! lowerAZ c)).length := htr _
  have c2 : (((trimList part).map hyphenToSpace).filter (fun c => ! lowerAZ c)).length ≤
      ((trimList part).map hyphenToSpace).length := hfl _ _
  have c3 : ((trimList part).map hyphenToSpace).length = (trimList part).length :=
    List.length_map _ _
  have c4 : (trimList part).length ≤ part.length := htr _
  rcases Nat.lt_or_ge (trimList ((trimList part).map hyphenToSpace
      |>.filter (fun c => ! lowerAZ c))).length part.length with hlt | hge
  · exact hlt
  · exfalso
    apply hcl
    have e1 : (((trimList part).map hyphenToSpace).filter (fun c => ! lowerAZ c)).length =
        ((trimList part).map hyphenToSpace).length := by omega
    have e2 : (((trimList part).map hyphenToSpace).filter (fun c => ! lowerAZ c)) =
        (trimList part).map hyphenToSpace := hfleq _ _ e1
    show trimList (((trimList part).map hyphenToSpace).filter (fun c => ! lowerAZ c)) =
      (trimList part).map hyphenToSpace
    rw [e2] at c1 hge ⊢
    apply htreq
    omega

/-- The double-quote character removed by `parseInches` (`replace(/"/g,"")`). -/
def quoteChar : Char := Char.ofNat 34

/-- The feet marker (apostrophe) of the `F\x27 REST` input form. -/
def feetChar : Char := Char.ofNat 39

/-- The feet-marker regex `^([+-]?\\d+)\\s*\x27\\s*(.*)$` of `parseInches`:
signed feet count and the trimmed remainder after the marker. -/
def feetSplit (str : List Char) : Option (ℤ × List Char) :=
  let sc := readSign str
  let ds := sc.2.takeWhile Char.isDigit
  let r1 := sc.2.dropWhile Char.isDigit
  if ds.isEmpty then none
  else
    match r1.dropWhile isWS with
    | c :: r3 =>
      if c = feetChar then some (intOfSign sc.1 (natOfDigits ds), trimList r3)
      else none
    | [] => none

/-- The dimensional parser `parseInches` of src/src/lib/units.ts: trims and
lowercases, accepts a plain number as inches, otherwise strips double quotes,
collapses whitespace, splits an optional feet part, and parses the rest as
inches via `parseInchesPart`; throws `Empty input` on empty input. -/
def parseInches (input : String) : Except String ℚ :=
  let s := (trimList input.data).map jsToLower
  if s.isEmpty then .error "Empty input"
  else
    match readPlainNumber s with
    | some v => .ok v
    | none =>
      let str := trimList (collapseWS (s.filter (fun c => c != quoteChar)))
      let fm := feetSplit str
      let feet : ℤ := match fm with | some q => q.1 | none => 0
      let rest : List Char := match fm with | some q => q.2 | none => str
      match (if rest.isEmpty then Except.ok 0 else parseInchesPart rest) with
      | .ok inches => .ok ((feet : ℚ) * 12 + inches)
      | .error e => .error e

/-- The ten decimal digit characters (the regex class `\\d`). -/
def digitChars : List Char := ['0','1','2','3','4','5','6','7','8','9']

/-- The rounding used by the solver, `jsRound q`, is an integer closest to
`q`: no integer is strictly nearer. -/
theorem jsRound_closest (q : ℚ) (m : ℤ) :
    |(jsRound q : ℚ) - q| ≤ |(m : ℚ) - q| := by
  unfold jsRound
  set r : ℤ := ⌊q + 1/2⌋ with hr
  have h1 : (r : ℚ) ≤ q + 1/2 := Int.floor_le (q + 1/2)
  have h2 : q + 1/2 < (r : ℚ) + 1 := Int.lt_floor_add_one (q + 1/2)
  have hrq : |(r : ℚ) - q| ≤ 1/2 := by
    rw [abs_le]; constructor <;> linarith
  rcases lt_trichotomy m r with hm | hm | hm
  · have hm1 : (m : ℚ) + 1 ≤ (r : ℚ) := by
      have : m + 1 ≤ r := hm
      exact_mod_cast this
    have hq : 1/2 ≤ q - (m : ℚ) := by linarith
    have : q - (m : ℚ) ≤ |(m : ℚ) - q| := by
      rw [abs_sub_comm]; exact le_abs_self _
    linarith
  · subst hm; exact le_refl _
  · have hm1 : (r : ℚ) + 1 ≤ (m : ℚ) := by
      have : r + 1 ≤ m := hm
      exact_mod_cast this
    have hq : 1/2 ≤ (m : ℚ) - q := by linarith
    have : (m : ℚ) - q ≤ |(m : ℚ) - q| := le_abs_self _
    linarith

/-- Clamp step of the solver: the source's `if n < 2 then 2 else n` is
`max 2 n`. -/
theorem clamp_two_eq_max (n : ℤ) : (if n < 2 then 2 else n) = max 2 n := by
  rcases le_or_lt 2 n with h | h
  · rw [if_neg (not_lt.mpr h), max_eq_right h]
  · rw [if_pos h, max_eq_left h.le]

/-- C1: for positive rise, run and target riser, `calcStairs` returns a layout
whose `numRisers` is a closest integer to `totalRiseIn/targetRiserIn` clamped
below at 2, whose `exactRiserIn` satisfies `numRisers × exactRiserIn =
totalRiseIn` exactly, and with `numTreads = numRisers − 1` and
`totalRunIn = numTreads × treadRunIn`. -/
theorem calcStairs_layout_invariants (i : StairInputs)
    (hrise : 0 < i.totalRiseIn) (hrun : 0 < i.treadRunIn)
    (htarget : 0 < i.targetRiserIn.getD (29/4)) :
    ∃ out, calcStairs i = .ok out ∧
      out.numRisers = max 2 (jsRound (i.totalRiseIn / i.targetRiserIn.getD (29/4))) ∧
      (∀ m : ℤ,
        |(jsRound (i.totalRiseIn / i.targetRiserIn.getD (29/4)) : ℚ) -
            i.totalRiseIn / i.targetRiserIn.getD (29/4)| ≤
          |(m : ℚ) - i.totalRiseIn / i.targetRiserIn.getD (29/4)|) ∧
      2 ≤ out.numRisers ∧
      out.exactRiserIn = i.totalRiseIn / (out.numRisers : ℚ) ∧
      (out.numRisers : ℚ) * out.exactRiserIn = i.totalRiseIn ∧
      out.numTreads = out.numRisers - 1 ∧
      out.treadRunIn = i.treadRunIn ∧
      out.totalRunIn = (out.numTreads : ℚ) * i.treadRunIn := by
  have h1 : ¬ ¬ (i.totalRiseIn > 0) := not_not_intro hrise
  have h2 : ¬ ¬ (i.treadRunIn > 0) := not_not_intro hrun
  simp only [calcStairs, if_neg h1, if_neg h2]
  refine ⟨_, rfl, ?_, fun m => jsRound_closest _ m, ?_, rfl, ?_, rfl, rfl, rfl⟩
  · exact clamp_two_eq_max _
  · rw [clamp_two_eq_max]; exact le_max_left _ _
  · rw [clamp_two_eq_max]
    have hne : ((max 2 (jsRound (i.totalRiseIn / i.targetRiserIn.getD (29/4))) : ℤ) : ℚ) ≠ 0 := by
      have : (2 : ℤ) ≤ max 2 (jsRound (i.totalRiseIn / i.targetRiserIn.getD (29/4))) :=
        le_max_left _ _
      intro h
      have : ((2 : ℤ) : ℚ) ≤ 0 := h ▸ (by exact_mod_cast this)
      norm_num at this
    field_simp

/-- C1 witness: the spec's worked example (rise 109.5, run 10, target 7.25)
instantiates the layout-invariant theorem. -/
theorem calcStairs_layout_invariants_witness :
    (0 : ℚ) < 219/2 ∧ (0 : ℚ) < 10 ∧
      (0 : ℚ) < (Option.some (29/4 : ℚ)).getD (29/4) ∧
      (∃ out,
        calcStairs ⟨219/2, 10, some (29/4), false, none, none⟩ = .ok out ∧
        out.numRisers =
          max 2 (jsRound ((219/2 : ℚ) / (Option.some (29/4 : ℚ)).getD (29/4))) ∧
        (∀ m : ℤ,
          |(jsRound ((219/2 : ℚ) / (Option.some (29/4 : ℚ)).getD (29/4)) : ℚ) -
              (219/2 : ℚ) / (Option.some (29/4 : ℚ)).getD (29/4)| ≤
            |(m : ℚ) - (219/2 : ℚ) / (Option.some (29/4 : ℚ)).getD (29/4)|) ∧
        2 ≤ out.numRisers ∧
        out.exactRiserIn = (219/2 : ℚ) / (out.numRisers : ℚ) ∧
        (out.numRisers : ℚ) * out.exactRiserIn = (219/2 : ℚ) ∧
        out.numTreads = out.numRisers - 1 ∧
        out.treadRunIn = (10 : ℚ) ∧
        out.totalRunIn = (out.numTreads : ℚ) * (10 : ℚ)) :=
  ⟨by norm_num, by norm_num, by norm_num,
    calcStairs_layout_invariants ⟨219/2, 10, some (29/4), false, none, none⟩
      (by norm_num) (by norm_num) (by norm_num)⟩

/-- C2: `calcStairs` throws exactly on non-positive rise or run; for every
positive input it returns a layout, and the three advisory conditions only
append warning strings — the result is present no matter which warnings
fire. -/
theorem calcStairs_error_iff (i : StairInputs) :
    ((∃ e, calcStairs i = .error e) ↔ (i.totalRiseIn ≤ 0 ∨ i.treadRunIn ≤ 0)) ∧
    (0 < i.totalRiseIn → 0 < i.treadRunIn →
      ∃ out, calcStairs i = .ok out ∧
        out.warnings =
          (if out.exactRiserIn > 31/4 then [riserWarning] else []) ++
          (if out.treadRunIn < 10 then [treadWarning] else []) ++
          (if ¬ out.meatPass then [meatWarning] else [])) := by
  constructor
  · constructor
    · rintro ⟨e, he⟩
      by_contra hcon
      push_neg at hcon
      obtain ⟨hr, hu⟩ := hcon
      simp only [calcStairs, if_neg (not_not_intro hr), if_neg (not_not_intro hu)] at he
      exact Except.noConfusion he
    · intro h
      rcases le_or_lt i.totalRiseIn 0 with h1 | h1
      · exact ⟨"Total rise must be > 0", by
          simp only [calcStairs, if_pos (not_lt.mpr h1)]⟩
      · have h2 : i.treadRunIn ≤ 0 := by
          rcases h with h2 | h2
          · exact absurd h1 (not_lt.mpr h2)
          · exact h2
        exact ⟨"Tread run must be > 0", by
          simp only [calcStairs, if_neg (not_not_intro h1), if_pos (not_lt.mpr h2)]⟩
  · intro hrise hrun
    simp only [calcStairs, if_neg (not_not_intro hrise), if_neg (not_not_intro hrun)]
    exact ⟨_, rfl, rfl⟩

/-- C2 witness: rise 100, run 5, target 100 makes all three advisory
conditions fire simultaneously, yet `calcStairs` still returns a layout. -/
theorem calcStairs_error_iff_witness :
    (0 : ℚ) < 100 ∧ (0 : ℚ) < 5 ∧
      (∃ out, calcStairs ⟨100, 5, some 100, false, none, none⟩ = .ok out ∧
        out.warnings =
          (if out.exactRiserIn > 31/4 then [riserWarning] else []) ++
          (if out.treadRunIn < 10 then [treadWarning] else []) ++
          (if ¬ out.meatPass then [meatWarning] else [])) :=
  ⟨by norm_num, by norm_num,
    (calcStairs_error_iff ⟨100, 5, some 100, false, none, none⟩).2
      (by norm_num) (by norm_num)⟩

/-- C5: for positive width and on-center spacing, `calcMaterials` returns
`numStringers` equal to `ceil(width/spacing)+1` floored at 2, further floored
at 3 exactly when the width is at most 36 inches; in particular a 36-inch
stair always gets at least 3 stringers. -/
theorem calcMaterials_numStringers_spec (m : MaterialsInputs)
    (hw : 0 < m.stairWidthIn) (hoc : 0 < m.stringerOcin) :
    ((calcMaterials m).numStringers =
      (if m.stairWidthIn ≤ 36
        then max (max (⌈m.stairWidthIn / m.stringerOcin⌉ + 1) 2) 3
        else max (⌈m.stairWidthIn / m.stringerOcin⌉ + 1) 2)) ∧
    (m.stairWidthIn = 36 → 3 ≤ (calcMaterials m).numStringers) := by
  have hcl : (if ⌈m.stairWidthIn / m.stringerOcin⌉ + 1 < 2
        then (2 : ℤ) else ⌈m.stairWidthIn / m.stringerOcin⌉ + 1) =
      max (⌈m.stairWidthIn / m.stringerOcin⌉ + 1) 2 := by
    rw [clamp_two_eq_max, max_comm]
  constructor
  · by_cases h36 : m.stairWidthIn ≤ 36
    · simp only [calcMaterials, if_pos h36, hcl]
    · simp only [calcMaterials, if_neg h36, hcl]
  · intro h36
    have h36le : m.stairWidthIn ≤ 36 := le_of_eq h36
    simp only [calcMaterials, if_pos h36le]
    exact le_max_right _ _

/-- C5 witness: width 36, spacing 16 instantiates the stringer-count theorem;
the hard floor of 3 applies. -/
theorem calcMaterials_numStringers_spec_witness :
    (0 : ℚ) < 36 ∧ (0 : ℚ) < 16 ∧
      (((calcMaterials ⟨36, 16, true, 14, 15, 177⟩).numStringers =
        (if (36 : ℚ) ≤ 36
          then max (max (⌈(36 : ℚ) / 16⌉ + 1) 2) 3
          else max (⌈(36 : ℚ) / 16⌉ + 1) 2)) ∧
      ((36 : ℚ) = 36 → 3 ≤ (calcMaterials ⟨36, 16, true, 14, 15, 177⟩).numStringers)) :=
  ⟨by norm_num, by norm_num,
    calcMaterials_numStringers_spec ⟨36, 16, true, 14, 15, 177⟩
      (by norm_num) (by norm_num)⟩

/-- Length of a list built from two entries per element of `List.range n`. -/
theorem range_bind_pair_length {α : Type} (f g : ℕ → α) (n : ℕ) :
    ((List.range n).flatMap (fun k => [f k, g k])).length = 2 * n := by
  induction n with
  | zero => simp
  | succ m ih =>
    rw [List.range_succ, List.flatMap_append]
    simp only [List.length_append, ih]
    simp
    ring

/-- Indexing into a list built from two entries per element of `List.range n`:
even positions hold the first entry, odd positions the second. -/
theorem range_bind_pair_get {α : Type} (f g : ℕ → α) (n s : ℕ) (hs : s < n) :
    ((List.range n).flatMap (fun k => [f k, g k]))[2 * s]? = some (f s) ∧
    ((List.range n).flatMap (fun k => [f k, g k]))[2 * s + 1]? = some (g s) := by
  induction n with
  | zero => omega
  | succ m ih =>
    rw [List.range_succ, List.flatMap_append]
    rcases Nat.lt_or_ge s m with hsm | hsm
    · have hlen := range_bind_pair_length f g m
      have h1 : 2 * s < ((List.range m).flatMap (fun k => [f k, g k])).length := by omega
      have h2 : 2 * s + 1 < ((List.range m).flatMap (fun k => [f k, g k])).length := by omega
      rw [List.getElem?_append_left h1, List.getElem?_append_left h2]
      exact ih hsm
    · have hsm' : s = m := by omega
      subst hsm'
      have hlen := range_bind_pair_length f g s
      constructor
      · rw [List.getElem?_append_right (by omega)]
        simp [hlen]
      · rw [List.getElem?_append_right (by omega)]
        have h1 : 2 * s + 1 - ((List.range s).flatMap (fun k => [f k, g k])).length = 1 := by
          omega
        rw [h1]
        simp

/-- Shape of a stair-step vertex path: a start vertex, two vertices per step
of `List.range n`, and a final vertex.  Gives the total vertex count, the
vertex at every position, and the last vertex. -/
theorem path_shape {α : Type} (v0 vl : α) (f g : ℕ → α) (n : ℕ) :
    ([v0] ++ ((List.range n).flatMap (fun k => [f k, g k])) ++ [vl]).length = 1 + 2 * n + 1 ∧
    ([v0] ++ ((List.range n).flatMap (fun k => [f k, g k])) ++ [vl])[0]? = some v0 ∧
    (∀ s : ℕ, s < n →
      ([v0] ++ ((List.range n).flatMap (fun k => [f k, g k])) ++ [vl])[1 + 2 * s]? =
        some (f s) ∧
      ([v0] ++ ((List.range n).flatMap (fun k => [f k, g k])) ++ [vl])[2 + 2 * s]? =
        some (g s)) ∧
    ([v0] ++ ((List.range n).flatMap (fun k => [f k, g k])) ++ [vl]).getLast? = some vl := by
  have hlen := range_bind_pair_length f g n
  refine ⟨?_, ?_, ?_, ?_⟩
  · simp [List.length_append, hlen]; omega
  · rw [List.append_assoc, List.singleton_append]
    simp
  · intro s hs
    have hpair := range_bind_pair_get f g n s hs
    constructor
    · rw [List.append_assoc, List.singleton_append]
      have h1 : 1 + 2 * s = 2 * s + 1 := by omega
      rw [h1, List.getElem?_cons_succ,
        List.getElem?_append_left (by omega : 2 * s < ((List.range n).flatMap (fun k => [f k, g k])).length)]
      exact hpair.1
    · rw [List.append_assoc, List.singleton_append]
      have h1 : 2 + 2 * s = (2 * s + 1) + 1 := by omega
      rw [h1, List.getElem?_cons_succ,
        List.getElem?_append_left (by omega : 2 * s + 1 < ((List.range n).flatMap (fun k => [f k, g k])).length)]
      exact hpair.2
  · exact List.getLast?_concat _

/-- C9: every stringer path produced by `buildStaircaseGeometry` has exactly
`1 + 2 × numTreads + 1` vertices, ordered as: bottom origin, then for every
tread the top-of-riser point followed by the back-of-tread point, ending at
the top landing point. -/
theorem buildStaircaseGeometry_stringer_path_shape (sd : StairOutputs)
    (md : MaterialsOutputs) (w : ℚ) (i : ℕ)
    (hi : i < ((buildStaircaseGeometry sd md w).stringers).length) :
    (((buildStaircaseGeometry sd md w).stringers)[i].length = 1 + 2 * sd.numTreads.toNat + 1) ∧
    (0 ≤ sd.numTreads →
      ((((buildStaircaseGeometry sd md w).stringers)[i].length : ℤ) = 1 + 2 * sd.numTreads + 1)) ∧
    ((buildStaircaseGeometry sd md w).stringers)[i][0]? =
      some ⟨(i : ℚ) * (w / ((md.numStringers : ℚ) - 1)), 0, 0⟩ ∧
    (∀ s : ℕ, s < sd.numTreads.toNat →
      ((buildStaircaseGeometry sd md w).stringers)[i][1 + 2 * s]? =
        some ⟨(i : ℚ) * (w / ((md.numStringers : ℚ) - 1)),
          ((s : ℚ) + 1) * sd.exactRiserIn, ((s : ℚ) + 1) * sd.treadRunIn - sd.treadRunIn⟩ ∧
      ((buildStaircaseGeometry sd md w).stringers)[i][2 + 2 * s]? =
        some ⟨(i : ℚ) * (w / ((md.numStringers : ℚ) - 1)),
          ((s : ℚ) + 1) * sd.exactRiserIn, ((s : ℚ) + 1) * sd.treadRunIn⟩) ∧
    ((buildStaircaseGeometry sd md w).stringers)[i].getLast? =
      some ⟨(i : ℚ) * (w / ((md.numStringers : ℚ) - 1)),
        (sd.numRisers : ℚ) * sd.exactRiserIn, sd.totalRunIn⟩ := by
  have hget : ((buildStaircaseGeometry sd md w).stringers)[i] =
      [Vec3.mk ((i : ℚ) * (w / ((md.numStringers : ℚ) - 1))) 0 0] ++
      ((List.range sd.numTreads.toNat).flatMap (fun step =>
        [Vec3.mk ((i : ℚ) * (w / ((md.numStringers : ℚ) - 1)))
            (((step : ℚ) + 1) * sd.exactRiserIn)
            (((step : ℚ) + 1) * sd.treadRunIn - sd.treadRunIn),
         Vec3.mk ((i : ℚ) * (w / ((md.numStringers : ℚ) - 1)))
            (((step : ℚ) + 1) * sd.exactRiserIn)
            (((step : ℚ) + 1) * sd.treadRunIn)])) ++
      [Vec3.mk ((i : ℚ) * (w / ((md.numStringers : ℚ) - 1)))
        ((sd.numRisers : ℚ) * sd.exactRiserIn) sd.totalRunIn] := by
    simp only [buildStaircaseGeometry] at hi ⊢
    rw [List.getElem_map, List.getElem_range]
  obtain ⟨hlen, hhead, hsteps, hlast⟩ :=
    path_shape
      (Vec3.mk ((i : ℚ) * (w / ((md.numStringers : ℚ) - 1))) 0 0)
      (Vec3.mk ((i : ℚ) * (w / ((md.numStringers : ℚ) - 1)))
        ((sd.numRisers : ℚ) * sd.exactRiserIn) sd.totalRunIn)
      (fun step =>
        Vec3.mk ((i : ℚ) * (w / ((md.numStringers : ℚ) - 1)))
          (((step : ℚ) + 1) * sd.exactRiserIn)
          (((step : ℚ) + 1) * sd.treadRunIn - sd.treadRunIn))
      (fun step =>
        Vec3.mk ((i : ℚ) * (w / ((md.numStringers : ℚ) - 1)))
          (((step : ℚ) + 1) * sd.exactRiserIn)
          (((step : ℚ) + 1) * sd.treadRunIn))
      sd.numTreads.toNat
  refine ⟨?_, ?_, ?_, ?_, ?_⟩
  · rw [hget]; exact hlen
  · intro hnn
    rw [hget, hlen]
    have : sd.numTreads.toNat = sd.numTreads := Int.toNat_of_nonneg hnn
    push_cast [this]
    ring
  · rw [hget]; exact hhead
  · intro s hs
    rw [hget]
    exact hsteps s hs
  · rw [hget]; exact hlast

/-- C9 witness: the stringer paths of the spec's worked layout (15 risers,
14 treads, 3 stringers) instantiate the path-shape theorem at stringer 0:
that path has 1 + 2 × 14 + 1 = 30 vertices. -/
theorem buildStaircaseGeometry_stringer_path_shape_witness :
    (((buildStaircaseGeometry
        ⟨15, 14, 73/10, 10, 140, 73/10, 73/10, 45/4 - 73/10 - 10, false, [meatWarning]⟩
        ⟨3, 16, 14, 15, []⟩ 36).stringers).get ⟨0, by decide⟩).length =
      1 + 2 * (14 : ℤ).toNat + 1 :=
  (buildStaircaseGeometry_stringer_path_shape
    ⟨15, 14, 73/10, 10, 140, 73/10, 73/10, 45/4 - 73/10 - 10, false, [meatWarning]⟩
    ⟨3, 16, 14, 15, []⟩ 36 0 (by decide)).1

/-- C10: with at least 2 stringers, `buildStaircaseGeometry` places one path
per stringer, every vertex of stringer `i` at x-coordinate
`i × stairWidthIn/(numStringers − 1)`, and the spacing spans the full stair
width: `(numStringers − 1) × spacing = stairWidthIn`. -/
theorem buildStaircaseGeometry_stringer_spacing (sd : StairOutputs)
    (md : MaterialsOutputs) (w : ℚ) (h2 : 2 ≤ md.numStringers) :
    ((buildStaircaseGeometry sd md w).stringers).length = md.numStringers.toNat ∧
    (∀ (i : ℕ) (hi : i < ((buildStaircaseGeometry sd md w).stringers).length),
      ∀ v ∈ ((buildStaircaseGeometry sd md w).stringers)[i],
        v.x = (i : ℚ) * (w / ((md.numStringers : ℚ) - 1))) ∧
    ((md.numStringers : ℚ) - 1) * (w / ((md.numStringers : ℚ) - 1)) = w := by
  have hne : ((md.numStringers : ℚ) - 1) ≠ 0 := by
    have : (2 : ℚ) ≤ (md.numStringers : ℚ) := by exact_mod_cast h2
    intro h
    rw [sub_eq_zero] at h
    rw [h] at this
    norm_num at this
  refine ⟨?_, ?_, ?_⟩
  · simp [buildStaircaseGeometry]
  · intro i hi v hv
    simp only [buildStaircaseGeometry] at hi hv
    rw [List.getElem_map, List.getElem_range] at hv
    simp only [List.mem_append, List.mem_flatMap, List.mem_range,
      List.mem_singleton, List.mem_cons, List.not_mem_nil, or_false] at hv
    rcases hv with (hv | ⟨s, hs, hv | hv⟩) | hv <;> subst hv <;> rfl
  · field_simp

/-- C10 witness: the worked layout with 3 stringers and width 36 instantiates
the spacing theorem. -/
theorem buildStaircaseGeometry_stringer_spacing_witness :
    (2 : ℤ) ≤ 3 ∧
      (((buildStaircaseGeometry
          ⟨15, 14, 73/10, 10, 140, 73/10, 73/10, 45/4 - 73/10 - 10, false, [meatWarning]⟩
          ⟨3, 16, 14, 15, []⟩ 36).stringers).length = (3 : ℤ).toNat ∧
      (∀ (i : ℕ) (hi : i < (((buildStaircaseGeometry
            ⟨15, 14, 73/10, 10, 140, 73/10, 73/10, 45/4 - 73/10 - 10, false, [meatWarning]⟩
            ⟨3, 16, 14, 15, []⟩ 36).stringers)).length),
        ∀ v ∈ ((buildStaircaseGeometry
            ⟨15, 14, 73/10, 10, 140, 73/10, 73/10, 45/4 - 73/10 - 10, false, [meatWarning]⟩
            ⟨3, 16, 14, 15, []⟩ 36).stringers)[i],
          v.x = (i : ℚ) * ((36 : ℚ) / (((3 : ℤ) : ℚ) - 1))) ∧
      (((3 : ℤ) : ℚ) - 1) * ((36 : ℚ) / (((3 : ℤ) : ℚ) - 1)) = 36) :=
  ⟨by decide,
    buildStaircaseGeometry_stringer_spacing
      ⟨15, 14, 73/10, 10, 140, 73/10, 73/10, 45/4 - 73/10 - 10, false, [meatWarning]⟩
      ⟨3, 16, 14, 15, []⟩ 36 (by decide)⟩

/-- C3 (code bug): `buildStaircaseGeometry` emits one 4-vertex riser quad per
riser unconditionally — the function never consults the closed/open-stair
flag (it receives only `numStringers` from the materials data).  Concretely,
for the solver layout of rise 109.5 / run 10 / target 7.25 and an OPEN stair
(`closedStair = false`, so `calcMaterials` reports `risersQty = 0`), the
returned geometry still contains 15 riser quads. -/
theorem buildStaircaseGeometry_risers_unconditional :
    (∀ (sd : StairOutputs) (md : MaterialsOutputs) (w : ℚ),
      ((buildStaircaseGeometry sd md w).risers).length = sd.numRisers.toNat ∧
      ∀ q ∈ (buildStaircaseGeometry sd md w).risers, q.length = 4) ∧
    (calcStairs ⟨219/2, 10, some (29/4), false, none, none⟩ =
      .ok ⟨15, 14, 73/10, 10, 140, 73/10, 73/10, -121/20, false, [meatWarning]⟩ ∧
    (calcMaterials ⟨36, 16, false, 14, 15, 177⟩).risersQty = 0 ∧
    ((buildStaircaseGeometry
        ⟨15, 14, 73/10, 10, 140, 73/10, 73/10, -121/20, false, [meatWarning]⟩
        (calcMaterials ⟨36, 16, false, 14, 15, 177⟩) 36).risers).length = 15) := by
  refine ⟨fun sd md w => ⟨?_, ?_⟩, ?_, ?_, ?_⟩
  · simp [buildStaircaseGeometry]
  · intro q hq
    simp only [buildStaircaseGeometry, List.mem_map] at hq
    obtain ⟨s, _, rfl⟩ := hq
    rfl
  · simp only [calcStairs, jsRound, STRINGER_ACTUAL_DEPTH_IN, MIN_MEAT_IN]
    norm_num
  · simp only [calcMaterials]
    norm_num
  · simp [buildStaircaseGeometry]

/-- C7: `toFeetInches` splits the magnitude at 12-inch boundaries: the inch
remainder is in `[0, 12)`, the magnitude is `12 × feet + remainder`, the
remainder is rendered by `toFraction` with denominator 16, and the sign of a
negative input is preserved as a leading minus. -/
theorem toFeetInches_split (v : ℚ) :
    0 ≤ |v| - (⌊|v| / 12⌋ : ℚ) * 12 ∧
    |v| - (⌊|v| / 12⌋ : ℚ) * 12 < 12 ∧
    |v| = 12 * (⌊|v| / 12⌋ : ℚ) + (|v| - (⌊|v| / 12⌋ : ℚ) * 12) ∧
    toFeetInches v =
      (if v < 0 then "-" else "") ++
      (if ⌊|v| / 12⌋ > 0
        then toString (⌊|v| / 12⌋ : ℤ) ++ "\x27 " ++
          toFraction (|v| - (⌊|v| / 12⌋ : ℚ) * 12) 16 ++ "\""
        else toFraction (|v| - (⌊|v| / 12⌋ : ℚ) * 12) 16 ++ "\"") := by
  have h1 : (⌊|v| / 12⌋ : ℚ) ≤ |v| / 12 := Int.floor_le _
  have h2 : |v| / 12 < (⌊|v| / 12⌋ : ℚ) + 1 := Int.lt_floor_add_one _
  refine ⟨by linarith, by linarith, by ring, ?_⟩
  simp only [toFeetInches]
  by_cases hft : ⌊|v| / 12⌋ > 0
  · rw [if_pos hft, if_pos hft]
    simp [String.append_assoc]
  · rw [if_neg hft, if_neg hft]
    simp [String.append_assoc]

/-- Rounding error of `jsRound` is at most one half. -/
theorem jsRound_err (x : ℚ) : |(jsRound x : ℚ) - x| ≤ 1/2 := by
  unfold jsRound
  have h1 : (⌊x + 1/2⌋ : ℚ) ≤ x + 1/2 := Int.floor_le _
  have h2 : x + 1/2 < (⌊x + 1/2⌋ : ℚ) + 1 := Int.lt_floor_add_one _
  rw [abs_le]; constructor <;> linarith

/-- `jsRound` is the identity on integers. -/
theorem jsRound_intCast (m : ℤ) : jsRound (m : ℚ) = m := by
  unfold jsRound
  apply Int.floor_eq_iff.mpr
  constructor
  · linarith
  · linarith

/-- The whole-plus-rounded-fraction value computed inside `toFraction` is
within `1/(2·denom)` of the input: the formatter quantizes to the nearest
`1/denom`. -/
theorem toFraction_nearest_aux (v : ℚ) (d : ℤ) (hd : 0 < d) :
    |((⌊v + 1/1000000000⌋ : ℚ) +
        (jsRound ((v - (⌊v + 1/1000000000⌋ : ℚ)) * (d : ℚ)) : ℚ) / (d : ℚ)) - v| ≤
      1 / (2 * (d : ℚ)) := by
  set W : ℤ := ⌊v + 1/1000000000⌋ with hW
  set x : ℚ := (v - (W : ℚ)) * (d : ℚ) with hx
  have hdq : (0 : ℚ) < (d : ℚ) := by exact_mod_cast hd
  have herr := jsRound_err x
  have key : ((W : ℚ) + (jsRound x : ℚ) / d) - v = ((jsRound x : ℚ) - x) / d := by
    rw [hx]
    field_simp
    ring
  rw [key, abs_div, abs_of_pos hdq]
  have h1 : |(jsRound x : ℚ) - x| / (d : ℚ) ≤ (1/2) / (d : ℚ) :=
    div_le_div_of_nonneg_right herr hdq.le
  have h2 : (1/2 : ℚ) / (d : ℚ) = 1 / (2 * (d : ℚ)) := by ring
  rw [h2] at h1
  exact h1

/-- On an exact multiple `w + n/d` (0 < n < d, `d` small enough that the JS
`1e-9` floor guard is inert), `toFraction` renders the GCD-reduced fraction,
as a pure fraction when the whole part is zero and as a mixed number
otherwise; the reduced fraction is in lowest terms and has the same value. -/
theorem toFraction_reduced_aux (w n d : ℕ) (hd : 0 < d) (hn : 0 < n) (hnd : n < d)
    (hdb : d ≤ 100000000) :
    toFraction ((w : ℚ) + (n : ℚ) / (d : ℚ)) ((d : ℕ) : ℤ) =
      (if ((w : ℕ) : ℤ) = 0
        then toString (((n : ℕ) : ℤ) / gcdJs ((n : ℕ) : ℤ) ((d : ℕ) : ℤ)) ++ "/" ++
          toString (((d : ℕ) : ℤ) / gcdJs ((n : ℕ) : ℤ) ((d : ℕ) : ℤ))
        else toString ((w : ℕ) : ℤ) ++ " " ++
          toString (((n : ℕ) : ℤ) / gcdJs ((n : ℕ) : ℤ) ((d : ℕ) : ℤ)) ++ "/" ++
          toString (((d : ℕ) : ℤ) / gcdJs ((n : ℕ) : ℤ) ((d : ℕ) : ℤ))) ∧
    Nat.Coprime ((((n : ℕ) : ℤ) / gcdJs ((n : ℕ) : ℤ) ((d : ℕ) : ℤ)).natAbs)
      ((((d : ℕ) : ℤ) / gcdJs ((n : ℕ) : ℤ) ((d : ℕ) : ℤ)).natAbs) ∧
    ((((n : ℕ) : ℤ) / gcdJs ((n : ℕ) : ℤ) ((d : ℕ) : ℤ) : ℤ) : ℚ) /
        ((((d : ℕ) : ℤ) / gcdJs ((n : ℕ) : ℤ) ((d : ℕ) : ℤ) : ℤ) : ℚ) =
      (n : ℚ) / (d : ℚ) := by
  have hdq : (0 : ℚ) < (d : ℚ) := by exact_mod_cast hd
  have hdz : (d : ℚ) ≠ 0 := ne_of_gt hdq
  have hn1 : (n : ℚ) + 1 ≤ (d : ℚ) := by exact_mod_cast hnd
  have hdb2 : (1 : ℚ) / 100000000 ≤ 1 / (d : ℚ) := by
    apply one_div_le_one_div_of_le hdq
    exact_mod_cast hdb
  have hfr1 : (0 : ℚ) ≤ (n : ℚ) / (d : ℚ) := by positivity
  have hfr2 : (n : ℚ) / (d : ℚ) ≤ 1 - 1 / (d : ℚ) := by
    rw [div_le_iff₀ hdq, sub_mul, one_mul, div_mul_cancel₀ _ hdz]
    linarith
  have hwhole : ⌊(w : ℚ) + (n : ℚ) / (d : ℚ) + 1/1000000000⌋ = ((w : ℕ) : ℤ) := by
    apply Int.floor_eq_iff.mpr
    constructor
    · push_cast
      linarith
    · push_cast
      linarith
  have hfrac : ((w : ℚ) + (n : ℚ) / (d : ℚ) - (((w : ℕ) : ℤ) : ℚ)) * (((d : ℕ) : ℤ) : ℚ) =
      (((n : ℕ) : ℤ) : ℚ) := by
    push_cast
    field_simp
    ring
  have hgcd : gcdJs ((n : ℕ) : ℤ) ((d : ℕ) : ℤ) = ((Nat.gcd n d : ℕ) : ℤ) := by
    simp [gcdJs, Int.natAbs_ofNat, Nat.gcd_comm]
  have hgpos : 0 < Nat.gcd n d := Nat.gcd_pos_of_pos_left _ hn
  have hgz : ((Nat.gcd n d : ℕ) : ℚ) ≠ 0 := by positivity
  have hdivn : ((n : ℕ) : ℤ) / ((Nat.gcd n d : ℕ) : ℤ) = ((n / Nat.gcd n d : ℕ) : ℤ) :=
    (Int.ofNat_ediv n (Nat.gcd n d)).symm
  have hdivd : ((d : ℕ) : ℤ) / ((Nat.gcd n d : ℕ) : ℤ) = ((d / Nat.gcd n d : ℕ) : ℤ) :=
    (Int.ofNat_ediv d (Nat.gcd n d)).symm
  refine ⟨?_, ?_, ?_⟩
  · simp only [toFraction, hwhole]
    rw [hfrac, jsRound_intCast,
      if_neg (by exact_mod_cast hn.ne'), if_neg (by exact_mod_cast hnd.ne)]
  · rw [hgcd, hdivn, hdivd]
    simp only [Int.natAbs_ofNat]
    exact Nat.coprime_div_gcd_div_gcd hgpos
  · rw [hgcd, hdivn, hdivd]
    rw [Int.cast_natCast, Int.cast_natCast,
      Nat.cast_div (Nat.gcd_dvd_left n d) hgz, Nat.cast_div (Nat.gcd_dvd_right n d) hgz]
    rw [div_div_div_cancel_right₀]
    exact hgz

/-- When rounding pushes the fractional numerator up to the denominator
(`n = denom`), `toFraction` rolls over to the next whole number. -/
theorem toFraction_rollover_aux (w d : ℕ) (hd : 0 < d) (hdb : d ≤ 100000000) :
    toFraction ((w : ℚ) + ((d : ℚ) - 1/2) / (d : ℚ)) ((d : ℕ) : ℤ) =
      toString (((w : ℕ) : ℤ) + 1) := by
  have hdq : (0 : ℚ) < (d : ℚ) := by exact_mod_cast hd
  have hdz : (d : ℚ) ≠ 0 := ne_of_gt hdq
  have hd1 : (1 : ℚ) ≤ (d : ℚ) := by exact_mod_cast hd
  have hdb2 : (d : ℚ) ≤ 100000000 := by exact_mod_cast hdb
  have hfr : ((d : ℚ) - 1/2) / (d : ℚ) = 1 - 1 / (2 * (d : ℚ)) := by
    field_simp
    ring
  have hhalf : (1 : ℚ) / 1000000000 < 1 / (2 * (d : ℚ)) := by
    apply one_div_lt_one_div_of_lt (by positivity)
    linarith
  have hfr1 : (0 : ℚ) ≤ ((d : ℚ) - 1/2) / (d : ℚ) := by
    apply div_nonneg _ hdq.le
    linarith
  have hwhole : ⌊(w : ℚ) + ((d : ℚ) - 1/2) / (d : ℚ) + 1/1000000000⌋ = ((w : ℕ) : ℤ) := by
    apply Int.floor_eq_iff.mpr
    constructor
    · push_cast
      linarith
    · push_cast
      rw [hfr]
      linarith
  have hfrac : ((w : ℚ) + ((d : ℚ) - 1/2) / (d : ℚ) - (((w : ℕ) : ℤ) : ℚ)) *
      (((d : ℕ) : ℤ) : ℚ) = (d : ℚ) - 1/2 := by
    push_cast
    field_simp
    ring
  have hjs : jsRound ((d : ℚ) - 1/2) = ((d : ℕ) : ℤ) := by
    unfold jsRound
    have h0 : (d : ℚ) - 1/2 + 1/2 = (((d : ℕ) : ℤ) : ℚ) := by push_cast; ring
    rw [h0, Int.floor_intCast]
  simp only [toFraction, hwhole]
  rw [hfrac, hjs, if_neg (by exact_mod_cast hd.ne'), if_pos rfl]

/-- C6: `toFraction` rounds to the nearest `1/denom`, reduces the fractional
part by GCD (to lowest terms, preserving the value), and renders a whole
number, pure fraction, or mixed number; `toFraction 7.3125 16 = "7 5/16"`,
and at the rollover boundary `toFraction 7.96875 16 = "8"`, not
`"7 16/16"`. -/
theorem toFraction_spec :
    toFraction (117/16) 16 = "7 5/16" ∧
    toFraction (255/32) 16 = "8" ∧
    toFraction (255/32) 16 ≠ "7 16/16" ∧
    (∀ (v : ℚ) (d : ℤ), 0 < d →
      |((⌊v + 1/1000000000⌋ : ℚ) +
          (jsRound ((v - (⌊v + 1/1000000000⌋ : ℚ)) * (d : ℚ)) : ℚ) / (d : ℚ)) - v| ≤
        1 / (2 * (d : ℚ))) ∧
    (∀ w n d : ℕ, 0 < d → 0 < n → n < d → d ≤ 100000000 →
      toFraction ((w : ℚ) + (n : ℚ) / (d : ℚ)) ((d : ℕ) : ℤ) =
        (if ((w : ℕ) : ℤ) = 0
          then toString (((n : ℕ) : ℤ) / gcdJs ((n : ℕ) : ℤ) ((d : ℕ) : ℤ)) ++ "/" ++
            toString (((d : ℕ) : ℤ) / gcdJs ((n : ℕ) : ℤ) ((d : ℕ) : ℤ))
          else toString ((w : ℕ) : ℤ) ++ " " ++
            toString (((n : ℕ) : ℤ) / gcdJs ((n : ℕ) : ℤ) ((d : ℕ) : ℤ)) ++ "/" ++
            toString (((d : ℕ) : ℤ) / gcdJs ((n : ℕ) : ℤ) ((d : ℕ) : ℤ))) ∧
      Nat.Coprime ((((n : ℕ) : ℤ) / gcdJs ((n : ℕ) : ℤ) ((d : ℕ) : ℤ)).natAbs)
        ((((d : ℕ) : ℤ) / gcdJs ((n : ℕ) : ℤ) ((d : ℕ) : ℤ)).natAbs) ∧
      ((((n : ℕ) : ℤ) / gcdJs ((n : ℕ) : ℤ) ((d : ℕ) : ℤ) : ℤ) : ℚ) /
          ((((d : ℕ) : ℤ) / gcdJs ((n : ℕ) : ℤ) ((d : ℕ) : ℤ) : ℤ) : ℚ) =
        (n : ℚ) / (d : ℚ)) ∧
    (∀ w d : ℕ, 0 < d → d ≤ 100000000 →
      toFraction ((w : ℚ) + ((d : ℚ) - 1/2) / (d : ℚ)) ((d : ℕ) : ℤ) =
        toString (((w : ℕ) : ℤ) + 1)) := by
  refine ⟨?_, ?_, ?_,
    fun v d hd => toFraction_nearest_aux v d hd,
    fun w n d hd hn hnd hdb => toFraction_reduced_aux w n d hd hn hnd hdb,
    fun w d hd hdb => toFraction_rollover_aux w d hd hdb⟩
  · simp only [toFraction, jsRound, gcdJs]
    norm_num
    rfl
  · simp only [toFraction, jsRound, gcdJs]
    norm_num
    rfl
  · simp only [toFraction, jsRound, gcdJs]
    norm_num
    decide

/-- C6 witness: the rollover component of the `toFraction` theorem applied at
whole part 7 and denominator 16 (the value 7.96875 renders as "8"). -/
theorem toFraction_spec_witness :
    (0 : ℕ) < 16 ∧ (16 : ℕ) ≤ 100000000 ∧
      toFraction (((7 : ℕ) : ℚ) + (((16 : ℕ) : ℚ) - 1/2) / ((16 : ℕ) : ℚ)) ((16 : ℕ) : ℤ) =
        toString (((7 : ℕ) : ℤ) + 1) :=
  ⟨by norm_num, by norm_num, toFraction_spec.2.2.2.2.2 7 16 (by norm_num) (by norm_num)⟩

/-- The reduce-style running sum used by `handleComplete` equals the sum of
the mapped x-fractions. -/
theorem foldl_add_eq_sum_map (l : List CalibrationPoint) (a : ℚ) :
    l.foldl (fun sum p => sum + p.x) a = a + (l.map (fun p => p.x)).sum := by
  induction l generalizing a with
  | nil => simp
  | cons p t ih =>
    simp only [List.foldl_cons, List.map_cons, List.sum_cons, ih]
    ring

/-- C8: advancing from `reference` with fewer than 2 points fails with the
validation message and leaves the state unchanged (still `reference`); with
at least 2 points the transition to `done` succeeds; and the completion
action emits `CalibrationData` whose `vanishingPointX` is the arithmetic mean
of the reference points' x-fractions and whose `vanishingPointY` is the
fixed value 0.4. -/
theorem calibration_reference_guard (s : CalState) :
    (s.currentStep = CalStep.reference → s.points.length < 2 →
      handleNext s = (some "Please mark at least 2 reference points", s)) ∧
    (s.currentStep = CalStep.reference → 2 ≤ s.points.length →
      handleNext s = (none, { s with currentStep := CalStep.done })) ∧
    (2 ≤ s.points.length →
      (handleComplete s).vanishingPointX =
        some ((s.points.map (fun p => p.x)).sum / (s.points.length : ℚ)) ∧
      (handleComplete s).vanishingPointY = some (2/5)) := by
  refine ⟨?_, ?_, ?_⟩
  · intro h hlt
    simp [handleNext, h, hlt]
  · intro h hge
    simp [handleNext, h, Nat.not_lt.mpr hge]
  · intro hge
    constructor
    · simp only [handleComplete, ge_iff_le, if_pos hge]
      rw [foldl_add_eq_sum_map, zero_add]
    · simp only [handleComplete, ge_iff_le, if_pos hge]

/-- C8 witness: a `reference` state holding two points at x-fractions 1/4 and
3/4 advances successfully, and completion emits their mean with y fixed at
0.4. -/
theorem calibration_reference_guard_witness :
    ((⟨[⟨1/4, 1/2, none, "Point 1"⟩, ⟨3/4, 1/2, none, "Point 2"⟩],
        CalStep.reference, 9/10, 800, 600⟩ : CalState).currentStep = CalStep.reference ∧
      2 ≤ (⟨[⟨1/4, 1/2, none, "Point 1"⟩, ⟨3/4, 1/2, none, "Point 2"⟩],
        CalStep.reference, 9/10, 800, 600⟩ : CalState).points.length) ∧
    handleNext ⟨[⟨1/4, 1/2, none, "Point 1"⟩, ⟨3/4, 1/2, none, "Point 2"⟩],
        CalStep.reference, 9/10, 800, 600⟩ =
      (none, { (⟨[⟨1/4, 1/2, none, "Point 1"⟩, ⟨3/4, 1/2, none, "Point 2"⟩],
        CalStep.reference, 9/10, 800, 600⟩ : CalState) with currentStep := CalStep.done }) ∧
    (handleComplete ⟨[⟨1/4, 1/2, none, "Point 1"⟩, ⟨3/4, 1/2, none, "Point 2"⟩],
        CalStep.reference, 9/10, 800, 600⟩).vanishingPointX =
      some ((([⟨1/4, 1/2, none, "Point 1"⟩,
        (⟨3/4, 1/2, none, "Point 2"⟩ : CalibrationPoint)].map (fun p => p.x)).sum) /
          (([⟨1/4, 1/2, none, "Point 1"⟩,
            (⟨3/4, 1/2, none, "Point 2"⟩ : CalibrationPoint)].length : ℕ) : ℚ)) ∧
    (handleComplete ⟨[⟨1/4, 1/2, none, "Point 1"⟩, ⟨3/4, 1/2, none, "Point 2"⟩],
        CalStep.reference, 9/10, 800, 600⟩).vanishingPointY = some (2/5) :=
  ⟨⟨rfl, by norm_num⟩,
    (calibration_reference_guard _).2.1 rfl (by norm_num),
    ((calibration_reference_guard _).2.2 (by norm_num)).1,
    ((calibration_reference_guard _).2.2 (by norm_num)).2⟩

/-- `dropWhile` never lengthens a list. -/
theorem dropWhile_length_le (f : Char → Bool) (l : List Char) :
    (l.dropWhile f).length ≤ l.length := by
  induction l with
  | nil => simp
  | cons a t ih =>
    by_cases hf : f a
    · rw [List.dropWhile_cons_of_pos hf]
      exact ih.trans (Nat.le_succ _)
    · rw [List.dropWhile_cons_of_neg hf]

/-- `filter` never lengthens a list. -/
theorem filter_length_le (f : Char → Bool) (l : List Char) :
    (l.filter f).length ≤ l.length := by
  induction l with
  | nil => simp
  | cons a t ih =>
    by_cases hf : f a
    · rw [List.filter_cons_of_pos hf]
      simpa using ih
    · rw [List.filter_cons_of_neg hf]
      exact ih.trans (Nat.le_succ _)

/-- A `dropWhile` that preserves the length dropped nothing. -/
theorem dropWhile_eq_self_of_length {f : Char → Bool} {l : List Char}
    (h : (l.dropWhile f).length = l.length) : l.dropWhile f = l := by
  induction l with
  | nil => rfl
  | cons a t ih =>
    by_cases hf : f a
    · rw [List.dropWhile_cons_of_pos hf] at h ⊢
      have := dropWhile_length_le f t
      simp only [List.length_cons] at h
      omega
    · rw [List.dropWhile_cons_of_neg hf]

/-- A `filter` that preserves the length removed nothing. -/
theorem filter_eq_self_of_length {f : Char → Bool} {l : List Char}
    (h : (l.filter f).length = l.length) : l.filter f = l := by
  induction l with
  | nil => rfl
  | cons a t ih =>
    by_cases hf : f a
    · rw [List.filter_cons_of_pos hf] at h ⊢
      simp only [List.length_cons] at h
      rw [ih (by omega)]
    · rw [List.filter_cons_of_neg hf] at h
      have := filter_length_le f t
      simp only [List.length_cons] at h
      omega

/-- Trimming never lengthens a string. -/
theorem trimList_length_le (l : List Char) : (trimList l).length ≤ l.length := by
  unfold trimList
  rw [List.length_reverse]
  calc ((l.dropWhile isWS).reverse.dropWhile isWS).length
      ≤ (l.dropWhile isWS).reverse.length := dropWhile_length_le _ _
    _ = (l.dropWhile isWS).length := List.length_reverse _
    _ ≤ l.length := dropWhile_length_le _ _

/-- A trim that preserves the length removed nothing. -/
theorem trimList_eq_self_of_length {l : List Char}
    (h : (trimList l).length = l.length) : trimList l = l := by
  unfold trimList at h ⊢
  rw [List.length_reverse] at h
  have h1 : ((l.dropWhile isWS).reverse.dropWhile isWS).length ≤ (l.dropWhile isWS).reverse.length :=
    dropWhile_length_le _ _
  rw [List.length_reverse] at h1
  have h2 : (l.dropWhile isWS).length ≤ l.length := dropWhile_length_le _ _
  have h3 : (l.dropWhile isWS).length = l.length := by omega
  have h4 : ((l.dropWhile isWS).reverse.dropWhile isWS).length = (l.dropWhile isWS).reverse.length := by
    rw [List.length_reverse]; omega
  rw [dropWhile_eq_self_of_length h4, List.reverse_reverse, dropWhile_eq_self_of_length h3]

/-- Termination of the letter-stripping retry of `parseInchesPart`: when
stripping changes the string, it strictly shortens it. -/
theorem cleaned_length_lt {p : List Char} (cleaned : List Char)
    (hcl : cleaned = trimList (p.filter (fun c => ! lowerAZ c)))
    (hne : ¬ cleaned = p) : cleaned.length < p.length := by
  by_contra hge
  push_neg at hge
  have h1 : cleaned.length ≤ (p.filter (fun c => ! lowerAZ c)).length := by
    rw [hcl]; exact trimList_length_le _
  have h2 : (p.filter (fun c => ! lowerAZ c)).length ≤ p.length := filter_length_le _ _
  have h3 : (p.filter (fun c => ! lowerAZ c)).length = p.length := by omega
  have h4 : p.filter (fun c => ! lowerAZ c) = p := filter_eq_self_of_length h3
  rw [h4] at hcl
  have h5 : (trimList p).length = p.length := by
    rw [← hcl]; omega
  rw [trimList_eq_self_of_length h5] at hcl
  exact hne hcl

/-- Character-class facts about decimal digits used by the symbolic parser
proofs: digits are digits, are not whitespace, survive lowercasing, are not
quotes, hyphens, signs, or the feet marker, and are not letters. -/
theorem digitChar_facts (c : Char) (hc : c ∈ digitChars) :
    Char.isDigit c = true ∧ isWS c = false ∧ jsToLower c = c ∧
    (c != quoteChar) = true ∧ hyphenToSpace c = c ∧ lowerAZ c = false ∧
    c ≠ '+' ∧ c ≠ '-' ∧ c ≠ feetChar := by
  simp only [digitChars, List.mem_cons, List.not_mem_nil, or_false] at hc
  rcases hc with rfl|rfl|rfl|rfl|rfl|rfl|rfl|rfl|rfl|rfl <;> exact ⟨by decide, by decide,
    by decide, by decide, by decide, by decide, by decide, by decide, by decide⟩

/-- `dropWhile` is the identity when no character satisfies the predicate. -/
theorem dropWhile_eq_self_of_all {f : Char → Bool} {l : List Char}
    (h : ∀ c ∈ l, f c = false) : l.dropWhile f = l := by
  cases l with
  | nil => rfl
  | cons a t => exact List.dropWhile_cons_of_neg (by simp [h a (List.mem_cons_self a t)])

/-- Trimming is the identity on whitespace-free strings. -/
theorem trimList_eq_self_of_all {l : List Char} (h : ∀ c ∈ l, isWS c = false) :
    trimList l = l := by
  unfold trimList
  rw [dropWhile_eq_self_of_all h,
    dropWhile_eq_self_of_all (fun c hc => h c (List.mem_reverse.mp hc)),
    List.reverse_reverse]

/-- Mapping a function that fixes every character is the identity. -/
theorem map_eq_self_of_all {f : Char → Char} {l : List Char} (h : ∀ c ∈ l, f c = c) :
    l.map f = l := by
  rw [List.map_congr_left (g := id) h, List.map_id]

/-- Whitespace collapsing is the identity on whitespace-free strings. -/
theorem collapseAux_eq_self {l : List Char} (h : ∀ c ∈ l, isWS c = false) (b : Bool) :
    collapseAux b l = l := by
  induction l generalizing b with
  | nil => rfl
  | cons a t ih =>
    unfold collapseAux
    rw [h a (List.mem_cons_self a t)]
    simp only [Bool.false_eq_true, if_false]
    rw [ih (fun c hc => h c (List.mem_cons_of_mem a hc))]

/-- `takeWhile` over `ds ++ x :: r` returns exactly `ds` when every character
of `ds` satisfies the predicate and `x` does not. -/
theorem takeWhile_append_all {f : Char → Bool} {ds : List Char}
    (h : ∀ c ∈ ds, f c = true) {x : Char} (hx : f x = false) (r : List Char) :
    (ds ++ x :: r).takeWhile f = ds := by
  induction ds with
  | nil => simpa [List.takeWhile_cons] using hx
  | cons a t ih =>
    rw [List.cons_append, List.takeWhile_cons_of_pos (h a (List.mem_cons_self a t)),
      ih (fun c hc => h c (List.mem_cons_of_mem a hc))]

/-- `dropWhile` over `ds ++ x :: r` returns `x :: r` when every character of
`ds` satisfies the predicate and `x` does not. -/
theorem dropWhile_append_all {f : Char → Bool} {ds : List Char}
    (h : ∀ c ∈ ds, f c = true) {x : Char} (hx : f x = false) (r : List Char) :
    (ds ++ x :: r).dropWhile f = x :: r := by
  induction ds with
  | nil => exact List.dropWhile_cons_of_neg (by simp [hx])
  | cons a t ih =>
    rw [List.cons_append, List.dropWhile_cons_of_pos (h a (List.mem_cons_self a t)),
      ih (fun c hc => h c (List.mem_cons_of_mem a hc))]

/-- Any pure fraction with a zero denominator — an arbitrary non-empty digit
string followed by `/0` — is rejected with `Invalid fraction`. -/
theorem parseInches_slash_zero (ds : List Char) (hne : ds ≠ [])
    (hall : ∀ c ∈ ds, c ∈ digitChars) :
    parseInches (String.mk (ds ++ ['/', '0'])) = .error "Invalid fraction" := by
  obtain ⟨d, ds', rfl⟩ := List.exists_cons_of_ne_nil hne
  have hws : ∀ c ∈ (d :: ds') ++ ['/', '0'], isWS c = false := by
    intro c hc
    rcases List.mem_append.mp hc with h | h
    · exact (digitChar_facts c (hall c h)).2.1
    · simp only [List.mem_cons, List.not_mem_nil, or_false] at h
      rcases h with rfl | rfl <;> decide
  have hlower : ∀ c ∈ (d :: ds') ++ ['/', '0'], jsToLower c = c := by
    intro c hc
    rcases List.mem_append.mp hc with h | h
    · exact (digitChar_facts c (hall c h)).2.2.1
    · simp only [List.mem_cons, List.not_mem_nil, or_false] at h
      rcases h with rfl | rfl <;> decide
  have hquote : ∀ c ∈ (d :: ds') ++ ['/', '0'], (c != quoteChar) = true := by
    intro c hc
    rcases List.mem_append.mp hc with h | h
    · exact (digitChar_facts c (hall c h)).2.2.2.1
    · simp only [List.mem_cons, List.not_mem_nil, or_false] at h
      rcases h with rfl | rfl <;> decide
  have hhyph : ∀ c ∈ (d :: ds') ++ ['/', '0'], hyphenToSpace c = c := by
    intro c hc
    rcases List.mem_append.mp hc with h | h
    · exact (digitChar_facts c (hall c h)).2.2.2.2.1
    · simp only [List.mem_cons, List.not_mem_nil, or_false] at h
      rcases h with rfl | rfl <;> decide
  have hdigit : ∀ c ∈ d :: ds', Char.isDigit c = true :=
    fun c hc => (digitChar_facts c (hall c hc)).1
  have hdfacts := digitChar_facts d (hall d (List.mem_cons_self d ds'))
  have htrim : trimList ((d :: ds') ++ ['/', '0']) = (d :: ds') ++ ['/', '0'] :=
    trimList_eq_self_of_all hws
  have hmap : ((d :: ds') ++ ['/', '0']).map jsToLower = (d :: ds') ++ ['/', '0'] :=
    map_eq_self_of_all hlower
  have hsign : readSign ((d :: ds') ++ ['/', '0']) = (false, (d :: ds') ++ ['/', '0']) := by
    rw [List.cons_append]
    simp [readSign, hdfacts.2.2.2.2.2.2.1, hdfacts.2.2.2.2.2.2.2.1]
  have htake : ((d :: ds') ++ ['/', '0']).takeWhile Char.isDigit = d :: ds' :=
    takeWhile_append_all hdigit (by decide) ['0']
  have hdrop : ((d :: ds') ++ ['/', '0']).dropWhile Char.isDigit = ['/', '0'] :=
    dropWhile_append_all hdigit (by decide) ['0']
  have hplain : readPlainNumber ((d :: ds') ++ ['/', '0']) = none := by
    simp only [readPlainNumber, hsign, htake, hdrop, List.isEmpty_cons, Bool.false_eq_true,
      if_false]
    rw [if_neg (show ¬ ('/' : Char) = '.' by decide)]
  have hmixed : readMixed ((d :: ds') ++ ['/', '0']) = none := by
    simp only [readMixed, hsign, htake, hdrop, List.isEmpty_cons, Bool.false_eq_true,
      if_false]
    rw [if_pos (show (['/', '0'] : List Char).length = (List.dropWhile isWS ['/', '0']).length
      from rfl)]
  have e1 : List.dropWhile isWS ['/', '0'] = '/' :: ['0'] := rfl
  have e2 : List.dropWhile isWS ['0'] = ['0'] := rfl
  have e3 : List.takeWhile Char.isDigit ['0'] = ['0'] := rfl
  have e4 : List.dropWhile Char.isDigit ['0'] = ([] : List Char) := rfl
  have e5 : natOfDigits ['0'] = 0 := rfl
  have hpure : readPure ((d :: ds') ++ ['/', '0']) = some (natOfDigits (d :: ds'), 0) := by
    simp only [readPure, htake, hdrop, e1, e2, e3, e4, e5, List.isEmpty_cons,
      List.isEmpty_nil, Bool.false_eq_true, if_false]
    simp
  have hfeet : feetSplit ((d :: ds') ++ ['/', '0']) = none := by
    simp only [feetSplit, hsign, htake, hdrop, e1, List.isEmpty_cons, Bool.false_eq_true,
      if_false]
    rw [if_neg (show ¬ ('/' : Char) = feetChar by decide)]
  have hfilter : ((d :: ds') ++ ['/', '0']).filter (fun c => c != quoteChar) =
      (d :: ds') ++ ['/', '0'] := List.filter_eq_self.mpr hquote
  have hcollapse : collapseWS ((d :: ds') ++ ['/', '0']) = (d :: ds') ++ ['/', '0'] :=
    collapseAux_eq_self hws false
  have hmaph : ((d :: ds') ++ ['/', '0']).map hyphenToSpace = (d :: ds') ++ ['/', '0'] :=
    map_eq_self_of_all hhyph
  have hpart : parseInchesPart ((d :: ds') ++ ['/', '0']) = .error "Invalid fraction" := by
    rw [parseInchesPart]
    simp only [htrim, hmaph, hplain, hmixed, hpure, List.isEmpty_cons, Bool.false_eq_true,
      if_false]
    simp
  have hdata : (String.mk ((d :: ds') ++ ['/', '0'])).data = (d :: ds') ++ ['/', '0'] := rfl
  simp only [parseInches, hdata, htrim, hmap, hplain, hfilter, hcollapse, hfeet, hpart,
    List.isEmpty_cons, Bool.false_eq_true, if_false]
  simp

/-- The inches part `1 1/2` parses as three halves. -/
theorem parseInchesPart_one_and_half :
    parseInchesPart ['1', ' ', '1', '/', '2'] = .ok (3/2) := by
  have h5 : trimList ['1', ' ', '1', '/', '2'] = ['1', ' ', '1', '/', '2'] := by decide
  have h6 : List.map hyphenToSpace ['1', ' ', '1', '/', '2'] = ['1', ' ', '1', '/', '2'] := by
    decide
  have h7 : readPlainNumber ['1', ' ', '1', '/', '2'] = none := by decide
  have h8 : readMixed ['1', ' ', '1', '/', '2'] = some (1, 1, 2) := by decide
  rw [parseInchesPart]
  simp only [h5, h6, h7, h8]
  norm_num

/-- The worked spec example: 9 feet 1 1/2 inches is 109.5 inches. -/
theorem parseInches_feet_mixed : parseInches "9\x27 1 1/2" = .ok (219/2) := by
  have h1 : (trimList "9\x27 1 1/2".data).map jsToLower = "9\x27 1 1/2".data := by decide
  have h2 : readPlainNumber "9\x27 1 1/2".data = none := by decide
  have h3 : trimList (collapseWS (List.filter (fun c => c != quoteChar) "9\x27 1 1/2".data)) =
      "9\x27 1 1/2".data := by decide
  have h4 : feetSplit "9\x27 1 1/2".data = some (9, "1 1/2".data) := by decide
  have h5 : ("1 1/2".data).isEmpty = false := by decide
  simp only [parseInches, h1, h2, h3, h4, h5, parseInchesPart_one_and_half]
  norm_num

/-- The hyphenated form `9\x271-1/2` also parses to 109.5 inches. -/
theorem parseInches_feet_hyphen_mixed : parseInches "9\x271-1/2" = .ok (219/2) := by
  have h1 : (trimList "9\x271-1/2".data).map jsToLower = "9\x271-1/2".data := by decide
  have h2 : readPlainNumber "9\x271-1/2".data = none := by decide
  have h3 : trimList (collapseWS (List.filter (fun c => c != quoteChar) "9\x271-1/2".data)) =
      "9\x271-1/2".data := by decide
  have h4 : feetSplit "9\x271-1/2".data = some (9, "1-1/2".data) := by decide
  have h5 : ("1-1/2".data).isEmpty = false := by decide
  have hpart : parseInchesPart ['1', '-', '1', '/', '2'] = .ok (3/2) := by
    have p5 : trimList ['1', '-', '1', '/', '2'] = ['1', '-', '1', '/', '2'] := by decide
    have p6 : List.map hyphenToSpace ['1', '-', '1', '/', '2'] = ['1', ' ', '1', '/', '2'] := by
      decide
    have p7 : readPlainNumber ['1', ' ', '1', '/', '2'] = none := by decide
    have p8 : readMixed ['1', ' ', '1', '/', '2'] = some (1, 1, 2) := by decide
    rw [parseInchesPart]
    simp only [p5, p6, p7, p8]
    norm_num
  simp only [parseInches, h1, h2, h3, h4, h5, hpart]
  norm_num

/-- The empty string is rejected with the parse error `Empty input`. -/
theorem parseInches_empty : parseInches "" = .error "Empty input" := rfl

/-- The fraction `1/0` is rejected with `Invalid fraction`. -/
theorem parseInches_one_over_zero : parseInches "1/0" = .error "Invalid fraction" := by
  have h1 : (trimList "1/0".data).map jsToLower = "1/0".data := by decide
  have h2 : readPlainNumber "1/0".data = none := by decide
  have h3 : trimList (collapseWS (List.filter (fun c => c != quoteChar) "1/0".data)) =
      "1/0".data := by decide
  have h4 : feetSplit "1/0".data = none := by decide
  have h5 : ("1/0".data).isEmpty = false := by decide
  have hpart : parseInchesPart ['1', '/', '0'] = .error "Invalid fraction" := by
    have p5 : trimList ['1', '/', '0'] = ['1', '/', '0'] := by decide
    have p6 : List.map hyphenToSpace ['1', '/', '0'] = ['1', '/', '0'] := by decide
    have p7 : readPlainNumber ['1', '/', '0'] = none := by decide
    have p8 : readMixed ['1', '/', '0'] = none := by decide
    have p9 : readPure ['1', '/', '0'] = some (1, 0) := by decide
    rw [parseInchesPart]
    simp only [p5, p6, p7, p8, p9]
    norm_num
  simp only [parseInches, h1, h2, h3, h4, h5, hpart]
  norm_num

/-- The mixed fraction `2 1/0` is rejected with `Invalid fraction`. -/
theorem parseInches_mixed_zero_den : parseInches "2 1/0" = .error "Invalid fraction" := by
  have h1 : (trimList "2 1/0".data).map jsToLower = "2 1/0".data := by decide
  have h2 : readPlainNumber "2 1/0".data = none := by decide
  have h3 : trimList (collapseWS (List.filter (fun c => c != quoteChar) "2 1/0".data)) =
      "2 1/0".data := by decide
  have h4 : feetSplit "2 1/0".data = none := by decide
  have h5 : ("2 1/0".data).isEmpty = false := by decide
  have hpart : parseInchesPart ['2', ' ', '1', '/', '0'] = .error "Invalid fraction" := by
    have p5 : trimList ['2', ' ', '1', '/', '0'] = ['2', ' ', '1', '/', '0'] := by decide
    have p6 : List.map hyphenToSpace ['2', ' ', '1', '/', '0'] = ['2', ' ', '1', '/', '0'] := by
      decide
    have p7 : readPlainNumber ['2', ' ', '1', '/', '0'] = none := by decide
    have p8 : readMixed ['2', ' ', '1', '/', '0'] = some (2, 1, 0) := by decide
    rw [parseInchesPart]
    simp only [p5, p6, p7, p8]
    norm_num
  simp only [parseInches, h1, h2, h3, h4, h5, hpart]
  norm_num

/-- The pure fraction `17/64` parses to 0.265625 inches. -/
theorem parseInches_seventeen_64 : parseInches "17/64" = .ok (17/64) := by
  have h1 : (trimList "17/64".data).map jsToLower = "17/64".data := by decide
  have h2 : readPlainNumber ['1', '7', '/', '6', '4'] = none := by decide
  have h3 : trimList (collapseWS (List.filter (fun c => c != quoteChar) "17/64".data)) =
      "17/64".data := by decide
  have h4 : feetSplit "17/64".data = none := by decide
  have h5 : ("17/64".data).isEmpty = false := by decide
  have hpart : parseInchesPart ['1', '7', '/', '6', '4'] = .ok (17/64) := by
    have p5 : trimList ['1', '7', '/', '6', '4'] = ['1', '7', '/', '6', '4'] := by decide
    have p6 : List.map hyphenToSpace ['1', '7', '/', '6', '4'] = ['1', '7', '/', '6', '4'] := by
      decide
    have p7 : readPlainNumber ['1', '7', '/', '6', '4'] = none := by decide
    have p8 : readMixed ['1', '7', '/', '6', '4'] = none := by decide
    have p9 : readPure ['1', '7', '/', '6', '4'] = some (17, 64) := by decide
    rw [parseInchesPart]
    simp only [p5, p6, p7, p8, p9]
    norm_num
  simp only [parseInches, h1, h2, h3, h4, h5, hpart]
  norm_num

/-- C4: `parseInches "9\x27 1 1/2" = 109.5` and `parseInches "17/64" =
0.265625`; the empty string fails with the parse error, `1/0` — and any pure
fraction with a zero denominator — fails with the invalid-fraction error, a
mixed fraction with zero denominator likewise; and hyphens in the inches part
are treated as whitespace, so `parseInches "9\x271-1/2"` equals
`parseInches "9\x27 1 1/2"`. -/
theorem parseInches_spec :
    parseInches "9\x27 1 1/2" = .ok (219/2) ∧
    parseInches "17/64" = .ok (17/64) ∧
    parseInches "" = .error "Empty input" ∧
    parseInches "1/0" = .error "Invalid fraction" ∧
    parseInches "2 1/0" = .error "Invalid fraction" ∧
    (∀ ds : List Char, ds ≠ [] → (∀ c ∈ ds, c ∈ digitChars) →
      parseInches (String.mk (ds ++ ['/', '0'])) = .error "Invalid fraction") ∧
    parseInches "9\x271-1/2" = parseInches "9\x27 1 1/2" :=
  ⟨parseInches_feet_mixed, parseInches_seventeen_64, parseInches_empty,
    parseInches_one_over_zero, parseInches_mixed_zero_den, parseInches_slash_zero,
    parseInches_feet_hyphen_mixed.trans parseInches_feet_mixed.symm⟩

/-- C4 witness: the zero-denominator component applied to the digit string
`3`, giving `parseInches "3/0" = Invalid fraction`. -/
theorem parseInches_spec_witness :
    (['3'] : List Char) ≠ [] ∧ (∀ c ∈ (['3'] : List Char), c ∈ digitChars) ∧
      parseInches (String.mk ((['3'] : List Char) ++ ['/', '0'])) =
        .error "Invalid fraction" :=
  ⟨by decide, by decide, parseInches_spec.2.2.2.2.2.1 ['3'] (by decide) (by decide)⟩
